import Mathlib

/-!
Verification of the clawplayspokemon streaming core.

Shallow embedding of the Python source:
- `src/python/compositor.py` (`RTMPStreamer`): audio ring buffer
  (`send_audio`, the per-cadence chunk extraction in `_audio_writer_loop`),
  the bounded frame queue (`send_frame`), and the two pipe-writer loops.
- `src/python-old/emulator.py` (`Emulator`): `press_button` and the
  staged-write/atomic-rename pattern of `save_state` / `save_screenshot`.
- `src/python-old/main.py` (`ClawPlaysPokemon`): `update_state_from_api`
  (the vote state machine) and the deferred post-move screenshot countdown
  in `emulator_loop`.

Machine integers (numpy int16 samples) are modelled as `Int`; the float32
gain multiply is modelled as exact rational arithmetic (all int16 values and
their products relevant to clamping are handled identically: the clip to
[-32768, 32767] happens after the product, so float rounding in the product
cannot re-introduce wraparound).
-/

namespace ClawPlaysPokemon

/-! ### Audio constants (compositor.py, class RTMPStreamer) -/

/-- `RTMPStreamer.AUDIO_SAMPLE_RATE = 48000`. -/
def AUDIO_SAMPLE_RATE : Nat := 48000

/-- `RTMPStreamer.AUDIO_CHANNELS = 2`. -/
def AUDIO_CHANNELS : Nat := 2

/-- `samples_per_chunk = self.AUDIO_SAMPLE_RATE * self.AUDIO_CHANNELS // 30`
(compositor.py line 541). -/
def samples_per_chunk : Nat := AUDIO_SAMPLE_RATE * AUDIO_CHANNELS / 30

/-- `max_samples = self.AUDIO_SAMPLE_RATE * self.AUDIO_CHANNELS // 2`
(compositor.py line 623): the ring buffer keeps at most ~500ms of audio. -/
def max_samples : Nat := AUDIO_SAMPLE_RATE * AUDIO_CHANNELS / 2

/-! ### `pop_chunk`: the per-cadence extraction in `_audio_writer_loop`
(compositor.py lines 555-568).  The Python code, under `self._audio_lock`:

    if len(self._audio_buffer) >= samples_per_chunk:
        chunk = self._audio_buffer[:samples_per_chunk]
        self._audio_buffer = self._audio_buffer[samples_per_chunk:]
    elif len(self._audio_buffer) > 0:
        chunk = np.concatenate([self._audio_buffer, np.zeros(...)])
        self._audio_buffer = np.array([], dtype=np.int16)
    else:
        chunk = silence

Returns the extracted chunk together with the buffer left behind. -/

def pop_chunk (buf : List Int) (n : Nat) : List Int × List Int :=
  if n ≤ buf.length then (buf.take n, buf.drop n)
  else if 0 < buf.length then (buf ++ List.replicate (n - buf.length) 0, [])
  else (List.replicate n 0, buf)

/-- C2: for every buffer state and every n > 0, `pop_chunk` returns exactly n
samples: with at least n buffered it returns and removes exactly the oldest n;
with some but fewer than n it returns those followed by zeros up to length n
and empties the buffer; with an empty buffer it returns n zero samples. -/
theorem pop_chunk_returns_exactly_n (buf : List Int) (n : Nat) (h : 0 < n) :
    (pop_chunk buf n).1.length = n ∧
    (n ≤ buf.length → pop_chunk buf n = (buf.take n, buf.drop n)) ∧
    (0 < buf.length → buf.length < n →
      pop_chunk buf n = (buf ++ List.replicate (n - buf.length) 0, [])) ∧
    (buf.length = 0 → pop_chunk buf n = (List.replicate n 0, buf)) := by
  refine ⟨?_, ?_, ?_, ?_⟩
  · unfold pop_chunk
    split_ifs with h1 h2
    · simp
      omega
    · simp
      omega
    · simp
  · intro hc
    unfold pop_chunk
    rw [if_pos hc]
  · intro hpos hlt
    unfold pop_chunk
    rw [if_neg (by omega), if_pos hpos]
  · intro h0
    unfold pop_chunk
    rw [if_neg (by omega), if_neg (by omega)]

/-- Witness for C2: `pop_chunk [5, 7, 9] 2` takes the two oldest samples. -/
theorem pop_chunk_returns_exactly_n_witness :
    (0:Nat) < 2 ∧
    ((pop_chunk [5, 7, 9] 2).1.length = 2 ∧
     (2 ≤ ([5, 7, 9] : List Int).length →
       pop_chunk [5, 7, 9] 2 = (([5, 7, 9] : List Int).take 2, ([5, 7, 9] : List Int).drop 2)) ∧
     (0 < ([5, 7, 9] : List Int).length → ([5, 7, 9] : List Int).length < 2 →
       pop_chunk [5, 7, 9] 2 =
         ([5, 7, 9] ++ List.replicate (2 - ([5, 7, 9] : List Int).length) 0, [])) ∧
     (([5, 7, 9] : List Int).length = 0 →
       pop_chunk [5, 7, 9] 2 = (List.replicate 2 0, [5, 7, 9]))) :=
  ⟨by decide, pop_chunk_returns_exactly_n [5, 7, 9] 2 (by decide)⟩

/-! ### `send_audio`: gain, clamp and overflow trim (compositor.py lines 603-630)

    boosted = (audio_data.astype('float32') * volume_boost).clip(-32768, 32767)
    samples = boosted.astype(np.int16).flatten()
    with self._audio_lock:
        self._audio_buffer = np.concatenate([self._audio_buffer, samples])
        max_samples = self.AUDIO_SAMPLE_RATE * self.AUDIO_CHANNELS // 2
        if len(self._audio_buffer) > max_samples:
            self._audio_buffer = self._audio_buffer[-max_samples:]

`astype(np.int16)` on an in-range float truncates toward zero. -/

/-- numpy `astype(np.int16)` truncation toward zero of an in-range value. -/
def truncToInt (q : ℚ) : Int := if 0 ≤ q then ⌊q⌋ else ⌈q⌉

/-- One sample through the `send_audio` gain stage:
multiply by `volume_boost`, `clip(-32768, 32767)`, truncate to int16. -/
def processSample (volume_boost : ℚ) (s : Int) : Int :=
  truncToInt (max (-32768) (min 32767 ((s : ℚ) * volume_boost)))

/-- `RTMPStreamer.send_audio`, returning the new buffer and the return value.
The `if not self.running` guard is the `running` parameter. -/
def send_audio (running : Bool) (buf : List Int) (audio_data : List Int)
    (volume_boost : ℚ) : List Int × Bool :=
  if running = false then (buf, false)
  else
    let samples := audio_data.map (processSample volume_boost)
    let b := buf ++ samples
    (if max_samples < b.length then b.drop (b.length - max_samples) else b, true)

/-- Fold a sequence of `send_audio` calls (each a samples/gain pair) over a
buffer, during a running session. -/
def runSendAudio (buf : List Int) : List (List Int × ℚ) → List Int
  | [] => buf
  | c :: rest => runSendAudio (send_audio true buf c.1 c.2).1 rest

/-- Concatenation of all (gain-processed) samples appended by a call sequence. -/
def processedConcat : List (List Int × ℚ) → List Int
  | [] => []
  | c :: rest => c.1.map (processSample c.2) ++ processedConcat rest

/-- Cumulative number of samples appended by a call sequence. -/
def totalAppended (calls : List (List Int × ℚ)) : Nat :=
  (calls.map (fun c => c.1.length)).sum

theorem send_audio_true_fst (buf s : List Int) (g : ℚ) :
    (send_audio true buf s g).1 =
      (let b := buf ++ s.map (processSample g)
       if max_samples < b.length then b.drop (b.length - max_samples) else b) := by
  simp [send_audio]

theorem send_audio_true_length (buf s : List Int) (g : ℚ) :
    (send_audio true buf s g).1.length =
      min (buf.length + s.length) max_samples := by
  rw [send_audio_true_fst]
  simp only []
  split_ifs with h
  · simp only [List.length_drop, List.length_append, List.length_map] at h ⊢
    omega
  · simp only [List.length_append, List.length_map] at h ⊢
    omega

theorem send_audio_true_suffix (buf s : List Int) (g : ℚ) :
    (send_audio true buf s g).1 <:+ buf ++ s.map (processSample g) := by
  rw [send_audio_true_fst]
  simp only []
  split_ifs with h
  · exact List.drop_suffix _ _
  · exact List.suffix_rfl

theorem append_suffix_append {α : Type} {l₁ l₂ : List α} (m : List α)
    (h : l₁ <:+ l₂) : l₁ ++ m <:+ l₂ ++ m := by
  obtain ⟨t, ht⟩ := h
  exact ⟨t, by rw [← List.append_assoc, ht]⟩

theorem runSendAudio_invariant (calls : List (List Int × ℚ)) :
    ∀ (buf C : List Int), buf <:+ C → buf.length = min C.length max_samples →
      runSendAudio buf calls <:+ C ++ processedConcat calls ∧
      (runSendAudio buf calls).length =
        min (C ++ processedConcat calls).length max_samples := by
  induction calls with
  | nil =>
    intro buf C hsuf hlen
    simpa [runSendAudio, processedConcat] using ⟨hsuf, hlen⟩
  | cons c rest ih =>
    intro buf C hsuf hlen
    have hstep_suf : (send_audio true buf c.1 c.2).1 <:+
        C ++ c.1.map (processSample c.2) :=
      (send_audio_true_suffix buf c.1 c.2).trans
        (append_suffix_append _ hsuf)
    have hstep_len : (send_audio true buf c.1 c.2).1.length =
        min (C ++ c.1.map (processSample c.2)).length max_samples := by
      rw [send_audio_true_length]
      simp only [List.length_append, List.length_map]
      omega
    have h := ih (send_audio true buf c.1 c.2).1
      (C ++ c.1.map (processSample c.2)) hstep_suf hstep_len
    simpa [runSendAudio, processedConcat, List.append_assoc] using h

/-- C3: for every sequence of `send_audio` append calls, after each call the
audio ring buffer never holds more than `max_samples` samples, and the
retained samples are exactly a suffix of the concatenation of all
gain-processed samples appended so far (of length `min total max_samples`,
i.e. the most recently appended ones; oldest dropped first). -/
theorem send_audio_buffer_bounded_newest_retained
    (calls pre post : List (List Int × ℚ))
    (hsplit : calls = pre ++ post)
    (hover : max_samples < totalAppended calls) :
    (runSendAudio [] pre).length ≤ max_samples ∧
    runSendAudio [] pre <:+ processedConcat pre ∧
    (runSendAudio [] pre).length = min (processedConcat pre).length max_samples := by
  have h := runSendAudio_invariant pre [] [] List.suffix_rfl (by simp)
  simp only [List.nil_append] at h
  exact ⟨h.2 ▸ Nat.min_le_right _ _, h.1, h.2⟩

/-- Witness for C3: a single append of 48001 samples overflows the
48000-sample bound; the invariant holds after it. -/
theorem send_audio_buffer_bounded_newest_retained_witness :
    ([(List.replicate 48001 (0:Int), (1:ℚ))] =
      [(List.replicate 48001 (0:Int), (1:ℚ))] ++ []) ∧
    max_samples < totalAppended [(List.replicate 48001 (0:Int), (1:ℚ))] ∧
    ((runSendAudio [] [(List.replicate 48001 (0:Int), (1:ℚ))]).length ≤ max_samples ∧
     runSendAudio [] [(List.replicate 48001 (0:Int), (1:ℚ))] <:+
       processedConcat [(List.replicate 48001 (0:Int), (1:ℚ))] ∧
     (runSendAudio [] [(List.replicate 48001 (0:Int), (1:ℚ))]).length =
       min (processedConcat [(List.replicate 48001 (0:Int), (1:ℚ))]).length
         max_samples) :=
  ⟨(List.append_nil _).symm,
   by unfold totalAppended max_samples AUDIO_SAMPLE_RATE AUDIO_CHANNELS
      simp only [List.map_cons, List.map_nil, List.sum_cons, List.sum_nil,
        List.length_replicate]
      omega,
   send_audio_buffer_bounded_newest_retained
     [(List.replicate 48001 (0:Int), (1:ℚ))]
     [(List.replicate 48001 (0:Int), (1:ℚ))] []
     (List.append_nil _).symm
     (by unfold totalAppended max_samples AUDIO_SAMPLE_RATE AUDIO_CHANNELS
         simp only [List.map_cons, List.map_nil, List.sum_cons, List.sum_nil,
           List.length_replicate]
         omega)⟩

theorem processSample_bounds (g : ℚ) (s : Int) :
    -32768 ≤ processSample g s ∧ processSample g s ≤ 32767 := by
  unfold processSample truncToInt
  have h1 : (-32768 : ℚ) ≤ max (-32768) (min 32767 ((s : ℚ) * g)) := le_max_left _ _
  have h2 : max (-32768 : ℚ) (min 32767 ((s : ℚ) * g)) ≤ 32767 :=
    max_le (by norm_num) (min_le_left _ _)
  split_ifs with h0
  · constructor
    · have : (0:Int) ≤ ⌊max (-32768 : ℚ) (min 32767 ((s : ℚ) * g))⌋ :=
        Int.le_floor.mpr (by exact_mod_cast h0)
      omega
    · calc ⌊max (-32768 : ℚ) (min 32767 ((s : ℚ) * g))⌋
          ≤ ⌊(32767 : ℚ)⌋ := Int.floor_le_floor h2
        _ = 32767 := by norm_num
  · constructor
    · have hc : ⌈(-32768 : ℚ)⌉ = -32768 := by
        rw [show ((-32768:ℚ)) = ((-32768 : Int) : ℚ) by norm_num, Int.ceil_intCast]
      calc (-32768 : Int) = ⌈(-32768 : ℚ)⌉ := hc.symm
        _ ≤ ⌈max (-32768 : ℚ) (min 32767 ((s : ℚ) * g))⌉ := Int.ceil_le_ceil h1
    · have : ⌈max (-32768 : ℚ) (min 32767 ((s : ℚ) * g))⌉ ≤ 0 :=
        Int.ceil_le.mpr (by push_neg at h0; exact_mod_cast le_of_lt h0)
      omega

/-- C4: `send_audio` stores each sample multiplied by the gain and clamped to
the representable int16 range (never wrapped): every stored value lies in
[-32768, 32767], and appending the single sample 16000 with gain 3.0 stores
32767, the maximum representable sample value. -/
theorem send_audio_gain_clamped_not_wrapped :
    (∀ (g : ℚ) (s : Int),
      -32768 ≤ processSample g s ∧ processSample g s ≤ 32767) ∧
    send_audio true [] [16000] 3 = ([32767], true) := by
  refine ⟨processSample_bounds, ?_⟩
  have hps : processSample 3 16000 = 32767 := by
    unfold processSample truncToInt
    have hmul : ((16000 : Int) : ℚ) * 3 = 48000 := by norm_num
    rw [hmul]
    norm_num
  simp [send_audio, hps, max_samples, AUDIO_SAMPLE_RATE, AUDIO_CHANNELS]

/-! ### `send_frame`: the bounded video frame queue (compositor.py lines 396,
586-601).  `self._frame_queue = queue.Queue(maxsize=5)`; `send_frame` renders
the frame and calls `put_nowait`, returning False when the queue is Full.
Rendering (`compositor.render_frame(state).tobytes()`) is treated as opaque:
the model takes the already-rendered frame bytes. -/

/-- Raw frame bytes (`frame.tobytes()`). -/
abbrev Frame := List Nat

/-- `queue.Queue(maxsize=5)` (compositor.py line 396). -/
def FRAME_QUEUE_MAXSIZE : Nat := 5

/-- `RTMPStreamer.send_frame`: non-blocking enqueue; the `if not self.running`
guard is the `running` parameter, `put_nowait` appends at the tail and raises
`queue.Full` (→ return False, queue unchanged) at capacity. -/
def send_frame (running : Bool) (q : List Frame) (frame : Frame) :
    List Frame × Bool :=
  if running = false then (q, false)
  else if q.length < FRAME_QUEUE_MAXSIZE then (q ++ [frame], true)
  else (q, false)

/-- C5: enqueue on a queue already holding 5 frames returns false and leaves
the queue unchanged; enqueue on a queue holding fewer than 5 frames returns
true and appends the new frame at the tail, growing the length by exactly
one.  (`send_frame` is a total function: it never blocks.) -/
theorem send_frame_full_drops_nonfull_appends (q qfull : List Frame) (f : Frame)
    (hq : q.length < FRAME_QUEUE_MAXSIZE)
    (hqfull : qfull.length = FRAME_QUEUE_MAXSIZE) :
    send_frame true qfull f = (qfull, false) ∧
    send_frame true q f = (q ++ [f], true) ∧
    (send_frame true q f).1.length = q.length + 1 := by
  refine ⟨?_, ?_, ?_⟩
  · unfold send_frame
    rw [if_neg (by simp), if_neg (by omega)]
  · unfold send_frame
    rw [if_neg (by simp), if_pos hq]
  · unfold send_frame
    rw [if_neg (by simp), if_pos hq]
    simp

/-- Witness for C5: a queue of 5 frames drops, a queue of 1 frame appends. -/
theorem send_frame_full_drops_nonfull_appends_witness :
    ([[0]] : List Frame).length < FRAME_QUEUE_MAXSIZE ∧
    (List.replicate 5 ([] : Frame)).length = FRAME_QUEUE_MAXSIZE ∧
    (send_frame true (List.replicate 5 ([] : Frame)) [1] =
        (List.replicate 5 ([] : Frame), false) ∧
     send_frame true [[0]] [1] = ([[0]] ++ [[1]], true) ∧
     (send_frame true [[0]] [1]).1.length = ([[0]] : List Frame).length + 1) :=
  ⟨by decide, by decide,
   send_frame_full_drops_nonfull_appends [[0]] (List.replicate 5 []) [1]
     (by decide) (by decide)⟩

/-! ### `press_button` (emulator.py lines 117-121, 244-276)

    VALID_BUTTONS = ["up", "down", "left", "right", "a", "b", "start", "select"]
    BUTTON_HOLD_FRAMES = 8

    def press_button(self, button):
        button = button.lower()
        if button not in VALID_BUTTONS:
            return False
        if self._held_button is not None:
            self._release_current_button()
        self.pyboy.button(button)
        self._held_button = button
        self._hold_frames_remaining = BUTTON_HOLD_FRAMES
        return True

Calls into PyBoy (`pyboy.button`, `pyboy.button_release`) are recorded as an
event trace.  Python's `str.lower()` is modelled on the basic latin letters
it acts on here (`pyLower`); all valid button names are ASCII. -/

/-- Python `str.lower()`: per-character lowercasing of the string data. -/
def pyLower (s : String) : String := ⟨s.data.map Char.toLower⟩

/-- `VALID_BUTTONS` (emulator.py line 118). -/
def VALID_BUTTONS : List String :=
  ["up", "down", "left", "right", "a", "b", "start", "select"]

/-- `BUTTON_HOLD_FRAMES = 8` (emulator.py line 121). -/
def BUTTON_HOLD_FRAMES : Nat := 8

/-- A call into the PyBoy input layer. -/
inductive InputEvent where
  | press (b : String)
  | release (b : String)
deriving DecidableEq

/-- The input-related state of `Emulator`: the held button, the remaining
hold counter, and the trace of PyBoy input calls made so far. -/
structure EmulatorInput where
  held_button : Option String
  hold_frames_remaining : Nat
  events : List InputEvent
deriving DecidableEq

/-- `Emulator._release_current_button` (emulator.py lines 271-276). -/
def release_current_button (st : EmulatorInput) : EmulatorInput :=
  match st.held_button with
  | some b => { st with held_button := none, hold_frames_remaining := 0,
                        events := st.events ++ [InputEvent.release b] }
  | none => st

/-- `Emulator.press_button` (emulator.py lines 244-269). -/
def press_button (st : EmulatorInput) (button : String) : EmulatorInput × Bool :=
  let b := pyLower button
  if b ∉ VALID_BUTTONS then (st, false)
  else
    let st1 := if st.held_button.isSome then release_current_button st else st
    ({ st1 with held_button := some b,
                hold_frames_remaining := BUTTON_HOLD_FRAMES,
                events := st1.events ++ [InputEvent.press b] }, true)

/-- The release calls `press_button` makes before pressing: one for the
currently held button, none when nothing is held. -/
def heldReleaseEvents (st : EmulatorInput) : List InputEvent :=
  match st.held_button with
  | some b => [InputEvent.release b]
  | none => []

theorem press_button_of_valid (st : EmulatorInput) (b : String)
    (h : pyLower b ∈ VALID_BUTTONS) :
    press_button st b =
      ({ held_button := some (pyLower b),
         hold_frames_remaining := BUTTON_HOLD_FRAMES,
         events := st.events ++ heldReleaseEvents st
                     ++ [InputEvent.press (pyLower b)] }, true) := by
  cases hh : st.held_button with
  | none => simp [press_button, release_current_button, heldReleaseEvents, hh, h]
  | some c => simp [press_button, release_current_button, heldReleaseEvents, hh, h]

theorem press_button_of_invalid (st : EmulatorInput) (b : String)
    (h : pyLower b ∉ VALID_BUTTONS) :
    press_button st b = (st, false) := by
  simp [press_button, h]

/-- C6: `press_button` on an unrecognized button identifier returns false and
is a no-op on the held-button state and the emulator input trace; on a
recognized one it returns true, first releases any currently held button,
then presses the (lowercased) button and sets the hold counter to 8. -/
theorem press_button_valid_presses_invalid_noop (st : EmulatorInput)
    (bbad bgood : String)
    (hbad : pyLower bbad ∉ VALID_BUTTONS)
    (hgood : pyLower bgood ∈ VALID_BUTTONS) :
    press_button st bbad = (st, false) ∧
    (press_button st bgood).2 = true ∧
    (press_button st bgood).1.held_button = some (pyLower bgood) ∧
    (press_button st bgood).1.hold_frames_remaining = BUTTON_HOLD_FRAMES ∧
    (press_button st bgood).1.events =
      st.events ++ heldReleaseEvents st ++ [InputEvent.press (pyLower bgood)] := by
  rw [press_button_of_invalid st bbad hbad, press_button_of_valid st bgood hgood]
  exact ⟨rfl, rfl, rfl, rfl, rfl⟩

/-- Witness for C6: with "a" held, pressing "B" releases "a" then presses
"b" for 8 frames and returns true; pressing "xyz" is a rejected no-op. -/
theorem press_button_valid_presses_invalid_noop_witness :
    pyLower "xyz" ∉ VALID_BUTTONS ∧
    pyLower "B" ∈ VALID_BUTTONS ∧
    (press_button ⟨some "a", 3, []⟩ "xyz" = (⟨some "a", 3, []⟩, false) ∧
     (press_button ⟨some "a", 3, []⟩ "B").2 = true ∧
     (press_button ⟨some "a", 3, []⟩ "B").1.held_button = some (pyLower "B") ∧
     (press_button ⟨some "a", 3, []⟩ "B").1.hold_frames_remaining
       = BUTTON_HOLD_FRAMES ∧
     (press_button ⟨some "a", 3, []⟩ "B").1.events =
       ([] : List InputEvent) ++ heldReleaseEvents ⟨some "a", 3, []⟩
         ++ [InputEvent.press (pyLower "B")]) :=
  ⟨by decide, by decide,
   press_button_valid_presses_invalid_noop ⟨some "a", 3, []⟩ "xyz" "B"
     (by decide) (by decide)⟩

theorem charToLower_toLower (c : Char) : c.toLower.toLower = c.toLower := by
  simp only [Char.toLower]
  split_ifs with h1 h2
  · exfalso
    have hv : (Char.ofNat (c.toNat + 32)).toNat = c.toNat + 32 := by
      rw [Char.ofNat, dif_pos (Or.inl (by omega))]
      rfl
    omega
  · rfl
  · rfl

theorem pyLower_pyLower (s : String) : pyLower (pyLower s) = pyLower s := by
  have hfun : Char.toLower ∘ Char.toLower = Char.toLower :=
    funext charToLower_toLower
  simp [pyLower, List.map_map, hfun]

/-- C10: button matching in `press_button` is case-insensitive: for every
string b, `press_button st b` behaves identically to
`press_button st (lower b)`; any case variant of a valid button name is
accepted and returns true. -/
theorem press_button_case_insensitive (st : EmulatorInput) (b : String)
    (h : pyLower b ∈ VALID_BUTTONS) :
    (∀ (st2 : EmulatorInput) (b2 : String),
       press_button st2 b2 = press_button st2 (pyLower b2)) ∧
    (press_button st b).2 = true := by
  constructor
  · intro st2 b2
    simp only [press_button, pyLower_pyLower]
  · rw [press_button_of_valid st b h]

/-- Witness for C10: "Start" is accepted despite its capital letter. -/
theorem press_button_case_insensitive_witness :
    pyLower "Start" ∈ VALID_BUTTONS ∧
    ((∀ (st2 : EmulatorInput) (b2 : String),
        press_button st2 b2 = press_button st2 (pyLower b2)) ∧
     (press_button ⟨none, 0, []⟩ "Start").2 = true) :=
  ⟨by decide, press_button_case_insensitive ⟨none, 0, []⟩ "Start" (by decide)⟩

/-! ### The vote state machine: `ClawPlaysPokemon.update_state_from_api`
(main.py lines 207-250)

    current = status.get("currentWindow", {})
    self.current_tallies = [...]
    self.time_remaining = current.get("timeRemainingSeconds", 10)
    prev = status.get("previousResult")
    if prev:
        window_id = prev.get("windowId")
        if window_id != self.last_window_id:
            self.last_window_id = window_id
            winner = prev.get("winner")
            if winner:
                self.last_winner = winner
                self.last_winner_votes = prev.get("totalVotes", 0)
                self.emulator.press_button(winner)
                self._post_move_screenshot_frames = 20
            else:
                print(...)

The optional JSON fields are `Option`s; Python truthiness of `winner` is
`some w` with `w ≠ ""`.  The `press_button` call is recorded as the second
component of the result: `some (window_id, winner)` when an injection
happens on this poll, `none` otherwise. -/

/-- `VoteTally` (compositor.py lines 24-29). -/
structure VoteTally where
  button : String
  count : Int
  percentage : Int
  voters : List String
deriving DecidableEq

/-- The `previousResult` record of a `/status` response. -/
structure PrevResult where
  windowId : Option Int
  winner : Option String
  totalVotes : Option Int
deriving DecidableEq

/-- A `/status` response (the fields `update_state_from_api` reads). -/
structure Status where
  allTallies : List VoteTally
  timeRemainingSeconds : Option Int
  previousResult : Option PrevResult
deriving DecidableEq

/-- The fields of `ClawPlaysPokemon` touched by `update_state_from_api` and
the post-move screenshot countdown (main.py lines 113-122). -/
structure OrchestratorState where
  last_window_id : Option Int
  last_winner : Option String
  last_winner_votes : Int
  current_tallies : List VoteTally
  time_remaining : Int
  post_move_screenshot_frames : Nat
deriving DecidableEq

/-- The state built by `ClawPlaysPokemon.__init__` (main.py lines 113-122). -/
def initialOrchestratorState : OrchestratorState :=
  { last_window_id := none, last_winner := none, last_winner_votes := 0,
    current_tallies := [], time_remaining := 10,
    post_move_screenshot_frames := 0 }

/-- `ClawPlaysPokemon.update_state_from_api` (main.py lines 207-250),
returning the new state and the injection performed, if any. -/
def update_state_from_api (s : OrchestratorState) (status : Status) :
    OrchestratorState × Option (Option Int × String) :=
  let s1 := { s with current_tallies := status.allTallies,
                     time_remaining := status.timeRemainingSeconds.getD 10 }
  match status.previousResult with
  | none => (s1, none)
  | some prev =>
    if prev.windowId = s1.last_window_id then (s1, none)
    else
      let s2 := { s1 with last_window_id := prev.windowId }
      match prev.winner with
      | some w =>
        if w = "" then (s2, none)
        else ({ s2 with last_winner := some w,
                        last_winner_votes := prev.totalVotes.getD 0,
                        post_move_screenshot_frames := 20 },
              some (prev.windowId, w))
      | none => (s2, none)

/-- The window identifier an injection on this poll is attributed to. -/
def stepEventId (s : OrchestratorState) (st : Status) : Option (Option Int) :=
  ((update_state_from_api s st).2).map Prod.fst

/-- Number of `press_button` injections attributed to window identifier `w`
while processing a sequence of polls from state `s`. -/
def injCount (w : Option Int) : OrchestratorState → List Status → Nat
  | _, [] => 0
  | s, st :: rest =>
    (if stepEventId s st = some w then 1 else 0) +
      injCount w (update_state_from_api s st).1 rest

/-- The sequence of window identifiers carried by the polls that have a
`previousResult` record. -/
def observedIds (polls : List Status) : List (Option Int) :=
  polls.filterMap (fun st => st.previousResult.map (fun p => p.windowId))

/-- `w` does not occur in the identifier sequence. -/
def noOccB (w : Option Int) : List (Option Int) → Bool
  | [] => true
  | i :: rest => if i = w then false else noOccB w rest

/-- After a (possibly empty) run of `w`s, `w` never occurs again. -/
def afterBlockB (w : Option Int) : List (Option Int) → Bool
  | [] => true
  | i :: rest => if i = w then afterBlockB w rest else noOccB w (i :: rest)

/-- All occurrences of `w` in the identifier sequence are consecutive
(form one contiguous block). -/
def oneBlockB (w : Option Int) : List (Option Int) → Bool
  | [] => true
  | i :: rest => if i = w then afterBlockB w rest else oneBlockB w rest

/-- A poll whose previous-result carries window id `wid`, winner `winner`
and 12 total votes. -/
def pollWith (wid : Int) (winner : String) : Status :=
  { allTallies := [], timeRemainingSeconds := some 10,
    previousResult := some { windowId := some wid, winner := some winner,
                             totalVotes := some 12 } }

/-- A poll whose previous-result carries window id `wid` and no winner. -/
def pollNoWinner (wid : Int) : Status :=
  { allTallies := [], timeRemainingSeconds := some 10,
    previousResult := some { windowId := some wid, winner := none,
                             totalVotes := some 0 } }

/-- Counterexample to C1 as stated: the machine only remembers the MOST
RECENT window identifier, so when identifier 5 recurs with identifier 6
observed in between (polls 5, 6, 5 each with a winner), identifier 5 is
injected twice. -/
theorem vote_window_reinjected_on_nonconsecutive_recurrence :
    ¬ (injCount (some 5) initialOrchestratorState
        [pollWith 5 "a", pollWith 6 "b", pollWith 5 "a"] ≤ 1) := by decide

theorem update_last_window_id (s : OrchestratorState) (st : Status) :
    ((update_state_from_api s st).1).last_window_id =
      (match st.previousResult with
       | none => s.last_window_id
       | some p => p.windowId) := by
  unfold update_state_from_api
  cases hp : st.previousResult with
  | none => rfl
  | some p =>
    simp only []
    split_ifs with h
    · exact h.symm
    · cases hw : p.winner with
      | none => rfl
      | some v =>
        dsimp only
        split_ifs with h2
        · rfl
        · rfl

theorem stepEventId_of_none (s : OrchestratorState) (st : Status)
    (h : st.previousResult = none) : stepEventId s st = none := by
  simp [stepEventId, update_state_from_api, h]

theorem stepEventId_cases (s : OrchestratorState) (st : Status) (p : PrevResult)
    (h : st.previousResult = some p) :
    stepEventId s st = none ∨ stepEventId s st = some p.windowId := by
  simp only [stepEventId, update_state_from_api, h]
  split_ifs with h1
  · exact Or.inl rfl
  · cases hw : p.winner with
    | none => exact Or.inl rfl
    | some v =>
      dsimp only
      split_ifs with h2
      · exact Or.inl rfl
      · exact Or.inr rfl

theorem stepEventId_same (s : OrchestratorState) (st : Status) (p : PrevResult)
    (h : st.previousResult = some p) (heq : p.windowId = s.last_window_id) :
    stepEventId s st = none := by
  simp [stepEventId, update_state_from_api, h, heq]

theorem stepEventId_ne (s : OrchestratorState) (st : Status) (p : PrevResult)
    (hp : st.previousResult = some p) (w : Option Int) (hw : p.windowId ≠ w) :
    stepEventId s st ≠ some w := by
  rcases stepEventId_cases s st p hp with h | h
  · simp [h]
  · simp [h, hw]

theorem observedIds_cons_none (st : Status) (polls : List Status)
    (h : st.previousResult = none) :
    observedIds (st :: polls) = observedIds polls := by
  simp [observedIds, h]

theorem observedIds_cons_some (st : Status) (polls : List Status)
    (p : PrevResult) (h : st.previousResult = some p) :
    observedIds (st :: polls) = p.windowId :: observedIds polls := by
  simp [observedIds, h]

theorem injCount_of_noOcc (w : Option Int) (polls : List Status) :
    ∀ (s : OrchestratorState),
      noOccB w (observedIds polls) = true → injCount w s polls = 0 := by
  induction polls with
  | nil => intro s _; rfl
  | cons st rest ih =>
    intro s h
    cases hp : st.previousResult with
    | none =>
      rw [observedIds_cons_none st rest hp] at h
      simp [injCount, stepEventId_of_none s st hp]
      exact ih _ h
    | some p =>
      rw [observedIds_cons_some st rest p hp] at h
      have hne : p.windowId ≠ w := by
        intro hw
        simp [noOccB, hw] at h
      have h2 : noOccB w (observedIds rest) = true := by
        simpa [noOccB, hne] using h
      simp [injCount, stepEventId_ne s st p hp w hne]
      exact ih _ h2

theorem injCount_of_afterBlock (w : Option Int) (polls : List Status) :
    ∀ (s : OrchestratorState), afterBlockB w (observedIds polls) = true →
      s.last_window_id = w → injCount w s polls = 0 := by
  induction polls with
  | nil => intro s _ _; rfl
  | cons st rest ih =>
    intro s h hlast
    cases hp : st.previousResult with
    | none =>
      rw [observedIds_cons_none st rest hp] at h
      have hlast2 : ((update_state_from_api s st).1).last_window_id = w := by
        rw [update_last_window_id, hp]
        exact hlast
      simp [injCount, stepEventId_of_none s st hp]
      exact ih _ h hlast2
    | some p =>
      rw [observedIds_cons_some st rest p hp] at h
      by_cases hw : p.windowId = w
      · have heq : p.windowId = s.last_window_id := by rw [hw, hlast]
        have h2 : afterBlockB w (observedIds rest) = true := by
          simpa [afterBlockB, hw] using h
        have hlast2 : ((update_state_from_api s st).1).last_window_id = w := by
          rw [update_last_window_id, hp]
          exact hw
        simp [injCount, stepEventId_same s st p hp heq]
        exact ih _ h2 hlast2
      · have h2 : noOccB w (observedIds rest) = true := by
          simp only [afterBlockB, noOccB, if_neg hw] at h
          exact h
        simp [injCount, stepEventId_ne s st p hp w hw]
        exact injCount_of_noOcc w rest _ h2

theorem injCount_of_oneBlock (w : Option Int) (polls : List Status) :
    ∀ (s : OrchestratorState), oneBlockB w (observedIds polls) = true →
      injCount w s polls ≤ 1 := by
  induction polls with
  | nil =>
    intro s _
    simp [injCount]
  | cons st rest ih =>
    intro s h
    cases hp : st.previousResult with
    | none =>
      rw [observedIds_cons_none st rest hp] at h
      simp [injCount, stepEventId_of_none s st hp]
      exact ih _ h
    | some p =>
      rw [observedIds_cons_some st rest p hp] at h
      by_cases hw : p.windowId = w
      · have h2 : afterBlockB w (observedIds rest) = true := by
          simpa [oneBlockB, hw] using h
        have hlast2 : ((update_state_from_api s st).1).last_window_id = w := by
          rw [update_last_window_id, hp]
          exact hw
        have hrest : injCount w (update_state_from_api s st).1 rest = 0 :=
          injCount_of_afterBlock w rest _ h2 hlast2
        simp only [injCount, hrest, Nat.add_zero]
        split_ifs
        · exact le_refl 1
        · exact Nat.zero_le 1
      · have h2 : oneBlockB w (observedIds rest) = true := by
          simpa [oneBlockB, hw] using h
        simp [injCount, stepEventId_ne s st p hp w hw]
        exact ih _ h2

/-- C1 (amended): a given window identifier triggers at most one injection
provided its occurrences among the polled previous-results are consecutive
(one contiguous block, possibly interleaved with polls that carry no
previous-result); in particular the same previous-result record observed in
many consecutive polls injects at most once.  As written the claim is false
on the code — the machine remembers only the most recent identifier, so an
identifier recurring after a different one was observed in between is
injected again (`vote_window_reinjected_on_nonconsecutive_recurrence`). -/
theorem vote_window_injects_at_most_once (w : Option Int)
    (polls : List Status) (s : OrchestratorState)
    (h : oneBlockB w (observedIds polls) = true) :
    injCount w s polls ≤ 1 :=
  injCount_of_oneBlock w polls s h

/-- Witness for C1 (amended): window 5 polled twice with winner "a", then
window 6 with no winner — at most one injection for identifier 5. -/
theorem vote_window_injects_at_most_once_witness :
    oneBlockB (some 5)
      (observedIds [pollWith 5 "a", pollWith 5 "a", pollNoWinner 6]) = true ∧
    injCount (some 5) initialOrchestratorState
      [pollWith 5 "a", pollWith 5 "a", pollNoWinner 6] ≤ 1 :=
  ⟨by decide,
   vote_window_injects_at_most_once (some 5)
     [pollWith 5 "a", pollWith 5 "a", pollNoWinner 6]
     initialOrchestratorState (by decide)⟩

/-! ### The deferred post-move screenshot countdown
(`ClawPlaysPokemon.emulator_loop`, main.py lines 293-298)

    if self._post_move_screenshot_frames > 0:
        self._post_move_screenshot_frames -= 1
        if self._post_move_screenshot_frames == 0:
            self.emulator.save_screenshot()

Armed at 20 by `update_state_from_api` when a winner is injected
(main.py line 248). -/

/-- One emulation-tick iteration of the countdown: the new counter value and
whether `save_screenshot` fires on this tick. -/
def emulator_tick_countdown (n : Nat) : Nat × Bool :=
  if 0 < n then (n - 1, decide (n - 1 = 0)) else (n, false)

/-- Run `k` emulation ticks of the countdown from counter value `n`:
final counter value and total number of snapshot captures fired. -/
def run_countdown : Nat → Nat → Nat × Nat
  | 0, n => (n, 0)
  | k + 1, n =>
    let r := emulator_tick_countdown n
    let rest := run_countdown k r.1
    (rest.1, (if r.2 then 1 else 0) + rest.2)

theorem run_countdown_of_zero (k : Nat) : run_countdown k 0 = (0, 0) := by
  induction k with
  | zero => rfl
  | succ k ih => simp [run_countdown, emulator_tick_countdown, ih]

theorem run_countdown_eq (k : Nat) : ∀ (c : Nat), 0 < c →
    run_countdown k c = (c - k, if c ≤ k then 1 else 0) := by
  induction k with
  | zero =>
    intro c hc
    simp only [run_countdown, Nat.sub_zero]
    rw [if_neg (by omega)]
  | succ k ih =>
    intro c hc
    by_cases h1 : c = 1
    · subst h1
      simp [run_countdown, emulator_tick_countdown, run_countdown_of_zero]
    · have h2 : 0 < c - 1 := by omega
      have hne : ¬ (c - 1 = 0) := by omega
      simp only [run_countdown, emulator_tick_countdown, if_pos hc,
        decide_eq_true_eq]
      rw [ih (c - 1) h2]
      have he1 : (c - 1 ≤ k) = (c ≤ k + 1) := propext ⟨by omega, by omega⟩
      have he2 : c - 1 - k = c - (k + 1) := by omega
      simp [hne, he1, he2]

theorem update_snd_cases (s : OrchestratorState) (st : Status) :
    (update_state_from_api s st).2 = none ∨
    ((update_state_from_api s st).1).post_move_screenshot_frames = 20 := by
  cases hp : st.previousResult with
  | none =>
    left
    simp [update_state_from_api, hp]
  | some p =>
    simp only [update_state_from_api, hp]
    split_ifs with h1
    · exact Or.inl rfl
    · cases hw : p.winner with
      | none => exact Or.inl rfl
      | some v =>
        dsimp only
        split_ifs with h2
        · exact Or.inl rfl
        · exact Or.inr rfl

theorem event_arms_countdown (s : OrchestratorState) (st : Status)
    (h : (update_state_from_api s st).2.isSome = true) :
    ((update_state_from_api s st).1).post_move_screenshot_frames = 20 := by
  rcases update_snd_cases s st with h2 | h2
  · rw [h2] at h
    simp at h
  · exact h2

/-- C7: once the countdown is armed at a positive value c (it is set to 20
exactly when `update_state_from_api` injects a winner), each emulation tick
decrements it by exactly one, and over any k ticks the counter reaches
c - k while exactly one snapshot capture fires as soon as k ≥ c — and none
after that, since the countdown has disarmed itself at zero. -/
theorem snapshot_countdown_fires_exactly_once (c k : Nat) (hc : 0 < c)
    (s : OrchestratorState) (st : Status)
    (harm : (update_state_from_api s st).2.isSome = true) :
    run_countdown k c = (c - k, if c ≤ k then 1 else 0) ∧
    ((update_state_from_api s st).1).post_move_screenshot_frames = 20 :=
  ⟨run_countdown_eq k c hc, event_arms_countdown s st harm⟩

/-- Witness for C7: arming by the winner of window 5 and running 25 ticks of
a countdown armed at 20 fires exactly one capture. -/
theorem snapshot_countdown_fires_exactly_once_witness :
    (0:Nat) < 20 ∧
    (update_state_from_api initialOrchestratorState
      (pollWith 5 "a")).2.isSome = true ∧
    (run_countdown 25 20 = (20 - 25, if 20 ≤ 25 then 1 else 0) ∧
     ((update_state_from_api initialOrchestratorState
        (pollWith 5 "a")).1).post_move_screenshot_frames = 20) :=
  ⟨by decide, by decide,
   snapshot_countdown_fires_exactly_once 20 25 (by decide)
     initialOrchestratorState (pollWith 5 "a") (by decide)⟩

/-! ### The pipe-writer loops and the shared running flag
(compositor.py lines 501-584)

Each loop iteration checks `while self.running`; an iteration that obtains a
payload (a queued frame / an elapsed audio cadence interval) performs one
pipe write, and on `BrokenPipeError` sets `self.running = False` and breaks
out of the loop.  Iterations without a payload (a `queue.Empty` timeout /
the cadence interval not yet elapsed) write nothing.  Nothing in either
loop ever sets the flag back to True; only `start()` does, when creating a
new session. -/

/-- Which writer loop an iteration belongs to. -/
inductive WriterKind where
  | video
  | audio
deriving DecidableEq

/-- Outcome of a pipe write attempt. -/
inductive WriteResult where
  | ok
  | brokenPipe
deriving DecidableEq

/-- The shared streamer state the writer loops touch: the `running` flag and
a count of completed pipe writes per medium. -/
structure StreamerShared where
  running : Bool
  video_writes : Nat
  audio_writes : Nat
deriving DecidableEq

/-- One iteration of a writer loop: `avail` says whether this iteration has a
payload to write (queued frame / elapsed cadence interval), `r` is the write
outcome.  Returns the new shared state and whether the loop continues. -/
def writer_step (s : StreamerShared) (k : WriterKind) (avail : Bool)
    (r : WriteResult) : StreamerShared × Bool :=
  if s.running = false then (s, false)
  else if avail = false then (s, true)
  else
    match r with
    | WriteResult.ok =>
      match k with
      | WriterKind.video => ({ s with video_writes := s.video_writes + 1 }, true)
      | WriterKind.audio => ({ s with audio_writes := s.audio_writes + 1 }, true)
    | WriteResult.brokenPipe => ({ s with running := false }, false)

/-- Run any interleaving of video/audio writer-loop iterations. -/
def writer_run (s : StreamerShared) :
    List (WriterKind × Bool × WriteResult) → StreamerShared
  | [] => s
  | e :: rest => writer_run (writer_step s e.1 e.2.1 e.2.2).1 rest

/-- C8: a broken-pipe write in either writer loop sets the shared running
flag to false and exits that loop; once the flag is false every later
iteration of either loop performs no pipe write and exits immediately (no
retry), and no loop iteration ever sets the flag back to true — the failure
is terminal for the session. -/
theorem broken_pipe_terminal (s t : StreamerShared) (k : WriterKind)
    (avail : Bool) (r : WriteResult)
    (events : List (WriterKind × Bool × WriteResult))
    (hs : s.running = true) (ht : t.running = false) :
    writer_step s k true WriteResult.brokenPipe
      = ({ s with running := false }, false) ∧
    writer_step t k avail r = (t, false) ∧
    (∀ (u : StreamerShared) (k2 : WriterKind) (a2 : Bool) (r2 : WriteResult),
      (writer_step u k2 a2 r2).1.running = true → u.running = true) ∧
    writer_run t events = t := by
  refine ⟨?_, ?_, ?_, ?_⟩
  · unfold writer_step
    rw [if_neg (by simp [hs])]
    rfl
  · unfold writer_step
    rw [if_pos ht]
  · intro u k2 a2 r2 h
    by_cases hu : u.running = true
    · exact hu
    · exfalso
      have hu2 : u.running = false := by
        cases hru : u.running
        · rfl
        · exact absurd hru hu
      unfold writer_step at h
      rw [if_pos hu2] at h
      rw [hu2] at h
      exact Bool.false_ne_true h
  · induction events with
    | nil => rfl
    | cons e rest ih =>
      have hstep : writer_step t e.1 e.2.1 e.2.2 = (t, false) := by
        unfold writer_step
        rw [if_pos ht]
      simp only [writer_run, hstep]
      exact ih

/-- Witness for C8: a running session with 3 video and 7 audio writes, and a
stopped one. -/
theorem broken_pipe_terminal_witness :
    (⟨true, 3, 7⟩ : StreamerShared).running = true ∧
    (⟨false, 3, 7⟩ : StreamerShared).running = false ∧
    (writer_step ⟨true, 3, 7⟩ WriterKind.video true WriteResult.brokenPipe
       = ({ running := false, video_writes := 3, audio_writes := 7 }, false) ∧
     writer_step ⟨false, 3, 7⟩ WriterKind.video true WriteResult.ok
       = (⟨false, 3, 7⟩, false) ∧
     (∀ (u : StreamerShared) (k2 : WriterKind) (a2 : Bool) (r2 : WriteResult),
       (writer_step u k2 a2 r2).1.running = true → u.running = true) ∧
     writer_run ⟨false, 3, 7⟩
       [(WriterKind.audio, true, WriteResult.ok),
        (WriterKind.video, false, WriteResult.ok)] = ⟨false, 3, 7⟩) :=
  ⟨rfl, rfl,
   broken_pipe_terminal ⟨true, 3, 7⟩ ⟨false, 3, 7⟩ WriterKind.video true
     WriteResult.ok
     [(WriterKind.audio, true, WriteResult.ok),
      (WriterKind.video, false, WriteResult.ok)] rfl rfl⟩

/-! ### Staged writes with atomic rename: `Emulator.save_state` and
`Emulator.save_screenshot` (emulator.py lines 190-233)

    temp_path = self.save_state_path.with_suffix(".tmp")
    with open(temp_path, "wb") as f:
        self.pyboy.save_state(f)
    temp_path.replace(self.save_state_path)     # atomic rename

(and identically for `save_screenshot` with suffix ".tmp.png").  Any
exception is caught and reported as a `False` return.  The filesystem is a
map from paths to byte contents; a failure while writing leaves an
arbitrary partial temp file, a failure at the rename leaves a complete temp
file, and in neither case is the destination touched. -/

/-- A filesystem: path → file contents (bytes), `none` when absent. -/
def FileSys : Type := String → Option (List Nat)

/-- Write (create or overwrite) a file. -/
def fsWrite (fs : FileSys) (p : String) (v : Option (List Nat)) : FileSys :=
  fun q => if q = p then v else fs q

/-- Where a staged save attempt stops. -/
inductive SaveOutcome where
  | failDuringWrite (written : List Nat)
  | failAtRename
  | success

/-- A staged save (`save_state` / `save_screenshot`): stage `content` to
`tmp`, then atomically rename `tmp` onto `dest`; exceptions yield `false`.
`failDuringWrite w` models an exception part-way through writing the temp
file (the temp file holds the partial bytes `w`); `failAtRename` models an
exception in `Path.replace`. -/
def staged_save (fs : FileSys) (dest tmp : String) (content : List Nat)
    (o : SaveOutcome) : FileSys × Bool :=
  match o with
  | SaveOutcome.failDuringWrite w => (fsWrite fs tmp (some w), false)
  | SaveOutcome.failAtRename => (fsWrite fs tmp (some content), false)
  | SaveOutcome.success =>
    let staged := fsWrite fs tmp (some content)
    (fsWrite (fsWrite staged dest (staged tmp)) tmp none, true)

/-- C9: a `save_state` / `save_screenshot` attempt that fails at any point
before the final rename leaves the previously existing file at the
destination path unchanged (and returns false); the destination is never
partially written — after any outcome it holds either its old contents or
the complete new contents. -/
theorem staged_save_preserves_dest (fs : FileSys) (dest tmp : String)
    (content : List Nat) (w : List Nat) (hne : tmp ≠ dest) :
    ((staged_save fs dest tmp content (SaveOutcome.failDuringWrite w)).1 dest
       = fs dest ∧
     (staged_save fs dest tmp content (SaveOutcome.failDuringWrite w)).2
       = false) ∧
    ((staged_save fs dest tmp content SaveOutcome.failAtRename).1 dest
       = fs dest ∧
     (staged_save fs dest tmp content SaveOutcome.failAtRename).2 = false) ∧
    (∀ (o : SaveOutcome),
      (staged_save fs dest tmp content o).1 dest = fs dest ∨
      (staged_save fs dest tmp content o).1 dest = some content) := by
  have hd : ∀ (v : Option (List Nat)), fsWrite fs tmp v dest = fs dest := by
    intro v
    unfold fsWrite
    rw [if_neg (fun hq => hne hq.symm)]
  refine ⟨⟨hd _, rfl⟩, ⟨hd _, rfl⟩, ?_⟩
  intro o
  cases o with
  | failDuringWrite w2 => exact Or.inl (hd _)
  | failAtRename => exact Or.inl (hd _)
  | success =>
    right
    have hdt : ¬ (dest = tmp) := fun hq => hne hq.symm
    simp only [staged_save, fsWrite]
    simp [hdt]

/-- Witness for C9: saving to "data/pokemon.save" staged via
"data/pokemon.tmp" on a filesystem where the destination holds [1, 2]. -/
theorem staged_save_preserves_dest_witness :
    ("data/pokemon.tmp" ≠ "data/pokemon.save") ∧
    (((staged_save (fun q => if q = "data/pokemon.save" then some [1, 2] else none)
        "data/pokemon.save" "data/pokemon.tmp" [3, 4]
        (SaveOutcome.failDuringWrite [3])).1 "data/pokemon.save"
          = (fun q => if q = "data/pokemon.save" then some [1, 2] else none)
              "data/pokemon.save" ∧
      (staged_save (fun q => if q = "data/pokemon.save" then some [1, 2] else none)
        "data/pokemon.save" "data/pokemon.tmp" [3, 4]
        (SaveOutcome.failDuringWrite [3])).2 = false) ∧
     ((staged_save (fun q => if q = "data/pokemon.save" then some [1, 2] else none)
        "data/pokemon.save" "data/pokemon.tmp" [3, 4]
        SaveOutcome.failAtRename).1 "data/pokemon.save"
          = (fun q => if q = "data/pokemon.save" then some [1, 2] else none)
              "data/pokemon.save" ∧
      (staged_save (fun q => if q = "data/pokemon.save" then some [1, 2] else none)
        "data/pokemon.save" "data/pokemon.tmp" [3, 4]
        SaveOutcome.failAtRename).2 = false) ∧
     (∀ (o : SaveOutcome),
       (staged_save (fun q => if q = "data/pokemon.save" then some [1, 2] else none)
         "data/pokemon.save" "data/pokemon.tmp" [3, 4] o).1 "data/pokemon.save"
           = (fun q => if q = "data/pokemon.save" then some [1, 2] else none)
               "data/pokemon.save" ∨
       (staged_save (fun q => if q = "data/pokemon.save" then some [1, 2] else none)
         "data/pokemon.save" "data/pokemon.tmp" [3, 4] o).1 "data/pokemon.save"
           = some [3, 4])) :=
  ⟨by decide,
   staged_save_preserves_dest
     (fun q => if q = "data/pokemon.save" then some [1, 2] else none)
     "data/pokemon.save" "data/pokemon.tmp" [3, 4] [3] (by decide)⟩

end ClawPlaysPokemon
